import Mathlib

/-!
Verification development for the `@doyosi/laravel` widget collection,
centred on the AJAX fetch-render-paginate engine that appears three times
in the repository: `AjaxDivBox` (src/AjaxDivBox.js), the newer `AjaxTable`
(src/unnamed/part_004) and the older `AjaxTable` (src/unnamed/part_005).

JavaScript objects are embedded as association lists with first-match
lookup; JavaScript primitive values that can appear as query parameters are
embedded as `JVal` (string, number, null, undefined).  The spread operator
`\x7b...a, ...b\x7d` is embedded as `jsSpread`, which keeps `a`'s key order but
lets `b` override values, then appends `b`'s fresh keys — exactly the
observable entry set of the JavaScript result.
-/

/-- A JavaScript value that can occur as a query-parameter value. -/
inductive JVal
  | str (s : String)
  | num (n : Nat)
  | null
  | undef
deriving DecidableEq, Repr

/-- First-match association-list lookup, the observable semantics of
reading a property from a JS object embedded as an entry list. -/
def jsLookup (o : List (String × JVal)) (k : String) : Option JVal :=
  (o.find? (fun p => p.1 == k)).map (·.2)

/-- Embedding of the JS object spread `\x7b ...a, ...b \x7d`: entries of `a`
(with `b`'s value winning on a shared key) followed by the entries of `b`
whose keys do not occur in `a`. -/
def jsSpread (a b : List (String × JVal)) : List (String × JVal) :=
  a.map (fun p => (p.1, (jsLookup b p.1).getD p.2)) ++
    b.filter (fun p => (jsLookup a p.1).isNone)

/-- The filter predicate of `AjaxDivBox._buildQueryString` /
`AjaxTable._buildQueryString` (part_004): `v !== '' && v != null`
(loose `!=` also drops `undefined`). -/
def keepParam : JVal → Bool
  | .str s => s ≠ ""
  | .num _ => true
  | .null => false
  | .undef => false

/-- String coercion applied by `URLSearchParams` / `encodeURIComponent`
to a parameter value. -/
def stringOfJVal : JVal → String
  | .str s => s
  | .num n => toString n
  | .null => "null"
  | .undef => "undefined"

/-- Inject a filter-mapping entry (always a string value, read from an
input element) into the JS value world. -/
def toJ (kv : String × String) : String × JVal := (kv.1, JVal.str kv.2)

/-- `AjaxDivBox._buildQueryString` (src/AjaxDivBox.js:169-177, identical in
part_004:101-107): `params = \x7b ...this.filters, page \x7d`, then if an
`additionalParams` producer is configured `params = \x7b ...params,
...additionalParams() \x7d`. -/
def buildParamsDiv (F : List (String × String)) (page : Nat)
    (A : Option (List (String × JVal))) : List (String × JVal) :=
  let base := jsSpread (F.map toJ) [("page", JVal.num page)]
  match A with
  | some a => jsSpread base a
  | none => base

/-- The decoded entry list of the query string produced by
`AjaxDivBox._buildQueryString`: entries with `'' `/`null`/`undefined`
values are filtered out, the rest are stringified by `URLSearchParams`. -/
def buildQueryDiv (F : List (String × String)) (page : Nat)
    (A : Option (List (String × JVal))) : List (String × String) :=
  ((buildParamsDiv F page A).filter (fun p => keepParam p.2)).map
    (fun p => (p.1, stringOfJVal p.2))

/-- `AjaxTable._buildQueryString` (part_005:111-116): `params =
\x7b ...this.filters, page \x7d` joined directly with `encodeURIComponent`;
no empty-value filtering and no `additionalParams` support. -/
def buildQuery5 (F : List (String × String)) (page : Nat) :
    List (String × String) :=
  (jsSpread (F.map toJ) [("page", JVal.num page)]).map
    (fun p => (p.1, stringOfJVal p.2))

/-- Lookup in a decoded query-entry list. -/
def qLookup (q : List (String × String)) (k : String) : Option String :=
  (q.find? (fun p => p.1 == k)).map (·.2)

/-- Lookup of a filter key with the empty-value exclusion applied. -/
def filterLookup (F : List (String × String)) (k : String) : Option String :=
  match F.find? (fun p => p.1 == k) with
  | some kv => if kv.2 = "" then none else some kv.2
  | none => none

/-- The decoded query asserted by the claim: the (non-empty) entries of the
filters spread with the producer output, plus the entry `page=p`.
This definition follows the claim text, to be compared with
`buildQueryDiv`, which follows the source. -/
def claimC1Query (F : List (String × String)) (p : Nat)
    (A : List (String × JVal)) : List (String × String) :=
  ((jsSpread (F.map toJ) A).filter (fun q => keepParam q.2)).map
    (fun q => (q.1, stringOfJVal q.2)) ++ [("page", toString p)]

theorem jsLookup_nil (k : String) : jsLookup [] k = none := rfl

theorem jsLookup_cons (p : String × JVal) (o : List (String × JVal))
    (k : String) :
    jsLookup (p :: o) k = if p.1 = k then some p.2 else jsLookup o k := by
  simp only [jsLookup, List.find?_cons]
  by_cases h : p.1 = k
  · simp [h]
  · have hb : (p.1 == k) = false := beq_eq_false_iff_ne.mpr h
    simp [hb, h]

theorem jsLookup_append (x y : List (String × JVal)) (k : String) :
    jsLookup (x ++ y) k = (jsLookup x k).orElse (fun _ => jsLookup y k) := by
  induction x with
  | nil => simp [jsLookup_nil]
  | cons p rest ih =>
    rw [List.cons_append, jsLookup_cons, jsLookup_cons]
    by_cases h : p.1 = k
    · simp [h]
    · simp [h, ih]

theorem jsLookup_map_override (a : List (String × JVal))
    (f : String → JVal → JVal) (k : String) :
    jsLookup (a.map (fun p => (p.1, f p.1 p.2))) k
      = (jsLookup a k).map (f k) := by
  induction a with
  | nil => simp [jsLookup_nil]
  | cons p rest ih =>
    rw [List.map_cons, jsLookup_cons, jsLookup_cons]
    by_cases h : p.1 = k
    · subst h; simp
    · simp [h, ih]

theorem jsLookup_filter_key (l : List (String × JVal)) (c : String → Bool)
    (k : String) :
    jsLookup (l.filter (fun q => c q.1)) k
      = if c k then jsLookup l k else none := by
  induction l with
  | nil => simp [jsLookup_nil]
  | cons p rest ih =>
    rw [List.filter_cons]
    by_cases hp : c p.1
    · rw [if_pos hp, jsLookup_cons, jsLookup_cons]
      by_cases h : p.1 = k
      · subst h; simp [hp]
      · simp [h, ih]
    · rw [if_neg (by simpa using hp), jsLookup_cons]
      by_cases h : p.1 = k
      · subst h
        simp only [if_pos rfl, ih]
        simp [Bool.eq_false_iff.mpr hp]
      · simp [h, ih]

theorem jsLookup_spread (a b : List (String × JVal)) (k : String) :
    jsLookup (jsSpread a b) k =
      match jsLookup a k with
      | some v => some ((jsLookup b k).getD v)
      | none => jsLookup b k := by
  unfold jsSpread
  rw [jsLookup_append, jsLookup_map_override a (fun s v => (jsLookup b s).getD v) k,
    jsLookup_filter_key b (fun s => (jsLookup a s).isNone) k]
  cases h : jsLookup a k with
  | some v => simp [h]
  | none => simp [h]

theorem qLookup_nil (k : String) : qLookup [] k = none := rfl

theorem qLookup_cons (p : String × String) (q : List (String × String))
    (k : String) :
    qLookup (p :: q) k = if p.1 = k then some p.2 else qLookup q k := by
  simp only [qLookup, List.find?_cons]
  by_cases h : p.1 = k
  · simp [h]
  · have hb : (p.1 == k) = false := beq_eq_false_iff_ne.mpr h
    simp [hb, h]

theorem jsLookup_eq_none_of_not_mem_keys (l : List (String × JVal))
    (k : String) (h : k ∉ l.map Prod.fst) : jsLookup l k = none := by
  induction l with
  | nil => rfl
  | cons p rest ih =>
    rw [jsLookup_cons]
    simp only [List.map_cons, List.mem_cons] at h
    push_neg at h
    rw [if_neg (Ne.symm h.1), ih h.2]

theorem jsLookup_isSome_of_mem_keys (l : List (String × JVal)) (k : String)
    (h : k ∈ l.map Prod.fst) : (jsLookup l k).isSome := by
  induction l with
  | nil => simp at h
  | cons p rest ih =>
    rw [jsLookup_cons]
    by_cases hp : p.1 = k
    · simp [hp]
    · rw [if_neg hp]
      apply ih
      simp only [List.map_cons, List.mem_cons] at h
      rcases h with h | h
      · exact absurd h.symm hp
      · exact h

/-- Keys of a spread: `a`'s keys followed by the kept keys of `b`;
key-uniqueness is preserved. -/
theorem keys_spread_nodup (a b : List (String × JVal))
    (ha : (a.map Prod.fst).Nodup) (hb : (b.map Prod.fst).Nodup) :
    ((jsSpread a b).map Prod.fst).Nodup := by
  unfold jsSpread
  rw [List.map_append, List.map_map]
  have hkeys : (a.map (Prod.fst ∘ fun p => (p.1, (jsLookup b p.1).getD p.2)))
      = a.map Prod.fst := by
    apply List.map_congr_left
    intro p _
    rfl
  rw [hkeys]
  apply List.Nodup.append ha
  · exact List.Nodup.sublist (List.Sublist.map Prod.fst (List.filter_sublist b)) hb
  · intro k hka hkb
    simp only [List.mem_map] at hkb
    obtain ⟨p, hpmem, hpk⟩ := hkb
    rw [List.mem_filter] at hpmem
    have hnone : (jsLookup a p.1).isNone = true := hpmem.2
    rw [hpk, Option.isNone_iff_eq_none] at hnone
    have hsome := jsLookup_isSome_of_mem_keys a k hka
    rw [hnone] at hsome
    simp at hsome

/-- Lookup through the filter-and-stringify step applied to an entry list
with unique keys. -/
theorem qLookup_filter_stringify (l : List (String × JVal)) (k : String)
    (hl : (l.map Prod.fst).Nodup) :
    qLookup ((l.filter (fun p => keepParam p.2)).map
        (fun p => (p.1, stringOfJVal p.2))) k
      = match jsLookup l k with
        | some v => if keepParam v then some (stringOfJVal v) else none
        | none => none := by
  induction l with
  | nil => rfl
  | cons p rest ih =>
    rw [List.map_cons] at hl
    have hnotin : p.1 ∉ rest.map Prod.fst := (List.nodup_cons.mp hl).1
    have hrest := (List.nodup_cons.mp hl).2
    rw [List.filter_cons, jsLookup_cons]
    by_cases hk : p.1 = k
    · subst hk
      by_cases hkeep : keepParam p.2
      · rw [if_pos hkeep, List.map_cons, qLookup_cons]
        simp [hkeep]
      · rw [if_neg (by simpa using hkeep), if_pos rfl, ih hrest,
          jsLookup_eq_none_of_not_mem_keys rest p.1 hnotin]
        simp [hkeep]
    · by_cases hkeep : keepParam p.2
      · rw [if_pos hkeep, List.map_cons, qLookup_cons, if_neg hk, ih hrest, if_neg hk]
      · rw [if_neg (by simpa using hkeep), ih hrest, if_neg hk]

theorem jsLookup_map_toJ (F : List (String × String)) (k : String) :
    jsLookup (F.map toJ) k
      = ((F.find? (fun p => p.1 == k)).map (·.2)).map JVal.str := by
  induction F with
  | nil => rfl
  | cons p rest ih =>
    rw [List.map_cons, jsLookup_cons, List.find?_cons]
    by_cases h : p.1 = k
    · simp [toJ, h]
    · have hb : (p.1 == k) = false := beq_eq_false_iff_ne.mpr h
      simp only [toJ, hb]
      rw [if_neg h, ih]

theorem keys_map_toJ (F : List (String × String)) :
    (F.map toJ).map Prod.fst = F.map Prod.fst := by
  rw [List.map_map]
  apply List.map_congr_left
  intro kv _
  rfl

/-- C1 (amended) — For `AjaxDivBox._buildQueryString` (and the identical
part_004 builder), the decoded query is exactly the filter mapping spread
with the page entry spread with the producer output, with the producer
winning over *both* the filters and the `page` entry, the `page` entry
winning over the filters, and every `''`/`null`/`undefined` value dropped
after the merge.  Stated as a total characterization of the lookup
function of the decoded entry list. -/
theorem buildQuery_merge_characterization
    (F : List (String × String)) (p : Nat) (A : List (String × JVal))
    (hF : (F.map Prod.fst).Nodup) (hA : (A.map Prod.fst).Nodup)
    (k : String) :
    qLookup (buildQueryDiv F p (some A)) k =
      match jsLookup A k with
      | some w => if keepParam w then some (stringOfJVal w) else none
      | none => if k = "page" then some (toString p) else filterLookup F k := by
  have hF' : ((F.map toJ).map Prod.fst).Nodup := by rw [keys_map_toJ]; exact hF
  have hP : (([("page", JVal.num p)]).map Prod.fst).Nodup := by simp
  have h1 := keys_spread_nodup (F.map toJ) [("page", JVal.num p)] hF' hP
  have h2 := keys_spread_nodup _ A h1 hA
  show qLookup (((jsSpread (jsSpread (F.map toJ) [("page", JVal.num p)]) A).filter
      (fun q => keepParam q.2)).map (fun q => (q.1, stringOfJVal q.2))) k = _
  rw [qLookup_filter_stringify _ k h2, jsLookup_spread, jsLookup_spread]
  cases hAk : jsLookup A k with
  | some w =>
    cases hFk : jsLookup (F.map toJ) k with
    | some v => simp [hAk, hFk]
    | none =>
      cases hPk : jsLookup [("page", JVal.num p)] k with
      | some v => simp [hAk, hFk, hPk]
      | none => simp [hAk, hFk, hPk]
  | none =>
    by_cases hpage : k = "page"
    · subst hpage
      have hPk : jsLookup [("page", JVal.num p)] "page" = some (JVal.num p) := by
        rw [jsLookup_cons]; simp
      cases hFk : jsLookup (F.map toJ) "page" with
      | some v => simp [hAk, hFk, hPk, keepParam, stringOfJVal]
      | none => simp [hAk, hFk, hPk, keepParam, stringOfJVal]
    · have hPk : jsLookup [("page", JVal.num p)] k = none := by
        rw [jsLookup_cons]
        rw [if_neg (fun h => hpage h.symm)]
        rfl
      cases hFk : jsLookup (F.map toJ) k with
      | some v =>
        rw [jsLookup_map_toJ] at hFk
        obtain ⟨w, hw, rfl⟩ := Option.map_eq_some'.mp hFk
        obtain ⟨kv, hkv, rfl⟩ := Option.map_eq_some'.mp hw
        simp only [hAk, jsLookup_map_toJ, hkv, Option.map_some', hPk,
          Option.getD_none, keepParam, stringOfJVal, filterLookup]
        rw [if_neg hpage]
        by_cases hv : kv.2 = ""
        · simp [hv]
        · simp [hv]
      | none =>
        rw [jsLookup_map_toJ] at hFk
        have hfind : F.find? (fun q => q.1 == k) = none := by
          cases hf : F.find? (fun q => q.1 == k) with
          | none => rfl
          | some kv => rw [hf] at hFk; simp at hFk
        simp only [hAk, jsLookup_map_toJ, hfind, Option.map_none', hPk,
          filterLookup]
        rw [if_neg hpage]

/-- C1 counterexample — the claim as stated: the decoded query contains
exactly the non-empty entries of the filters merged with the producer
output, *plus the entry page=p*.  With producer output containing a
`page` key (filters empty, requested page 1, producer returning page 5),
the code yields only `page=5` — the asserted entry `page=1` is absent,
because the producer's spread also overrides the `page` entry. -/
theorem buildQuery_page_override_counterexample :
    ¬ (∀ e : String × String,
        e ∈ buildQueryDiv [] 1 (some [("page", JVal.num 5)]) ↔
          e ∈ claimC1Query [] 1 [("page", JVal.num 5)]) := by
  intro h
  have h2 := (h ("page", "1")).mpr (by decide)
  exact absurd h2 (by decide)

/-- Witness for `buildQuery_merge_characterization` at a concrete input:
filters a=1, c empty-string, requested page 7, producer b=2; the producer
entry, the page entry, and the non-empty filter entry are all present
and the empty one dropped. -/
theorem buildQuery_merge_characterization_witness :
    qLookup (buildQueryDiv [("a", "1"), ("c", "")] 7
        (some [("b", JVal.str "2")])) "a" = some "1" ∧
    qLookup (buildQueryDiv [("a", "1"), ("c", "")] 7
        (some [("b", JVal.str "2")])) "c" = none ∧
    qLookup (buildQueryDiv [("a", "1"), ("c", "")] 7
        (some [("b", JVal.str "2")])) "page" = some "7" := by
  refine ⟨?_, ?_, ?_⟩
  · exact (buildQuery_merge_characterization [("a", "1"), ("c", "")] 7
      [("b", JVal.str "2")] (by decide) (by decide) "a").trans (by decide)
  · exact (buildQuery_merge_characterization [("a", "1"), ("c", "")] 7
      [("b", JVal.str "2")] (by decide) (by decide) "c").trans (by decide)
  · exact (buildQuery_merge_characterization [("a", "1"), ("c", "")] 7
      [("b", JVal.str "2")] (by decide) (by decide) "page").trans (by decide)

/-!
## Endpoint construction (claim C10)

`AjaxDivBox.fetchData` (src/AjaxDivBox.js:209) and both `AjaxTable`
variants (part_004:132, part_005:129-131) build the request endpoint as
`url.split('?')[0]` followed by `'?'` and the freshly built query string.
Strings are embedded as character lists; `split('?')[0]` is the longest
prefix free of `'?'`.
-/

/-- `url.split('?')[0]`: the part of the URL before the first `'?'`
(the whole URL when it has none). -/
def splitQHead (s : List Char) : List Char := s.takeWhile (fun c => c ≠ '?')

/-- The endpoint string built for a fetch (template literal at
src/AjaxDivBox.js:209): base part, `'?'`, fresh query string. -/
def endpointOf (url : List Char) (qs : List Char) : List Char :=
  splitQHead url ++ '?' :: qs

theorem splitQHead_append (a b : List Char) (ha : ∀ c ∈ a, c ≠ '?') :
    splitQHead (a ++ '?' :: b) = a := by
  induction a with
  | nil => rfl
  | cons c rest ih =>
    have hc : c ≠ '?' := ha c (List.mem_cons_self c rest)
    have hrest : ∀ d ∈ rest, d ≠ '?' := fun d hd => ha d (List.mem_cons_of_mem c hd)
    simp only [splitQHead, List.cons_append, List.takeWhile_cons]
    rw [if_pos (by simpa using hc)]
    have := ih hrest
    simp only [splitQHead] at this
    rw [this]

/-- C10 (confirmed) — for every configured URL containing a `'?'`, the
request endpoint is the URL's prefix before its first `'?'` followed by
`'?'` and the freshly built query string: whatever query parameters were
embedded in the configured URL (`b` below) are discarded on every fetch,
never merged. -/
theorem endpoint_discards_embedded_query (a b qs : List Char)
    (ha : ∀ c ∈ a, c ≠ '?') :
    endpointOf (a ++ '?' :: b) qs = a ++ '?' :: qs := by
  unfold endpointOf
  rw [splitQHead_append a b ha]

/-- Witness for `endpoint_discards_embedded_query`: the configured URL
`/api/items?old=1` with fresh query `page=2` yields `/api/items?page=2`;
the embedded `old=1` is gone. -/
theorem endpoint_discards_embedded_query_witness :
    endpointOf ("/api/items?old=1".toList) ("page=2".toList)
      = "/api/items?page=2".toList := by
  have h := endpoint_discards_embedded_query "/api/items".toList "old=1".toList
    "page=2".toList (by decide)
  have heq : ("/api/items?old=1".toList)
      = "/api/items".toList ++ '?' :: "old=1".toList := by decide
  rw [heq, h]
  decide

/-!
## Records and template rendering (claims C3, C9)

A response record is embedded as an association list of JSON-like values
(`RVal`).  The regex passes of `_renderTemplate`
(src/AjaxDivBox.js:290-306, part_004:180-193, part_005:183-185) replace
`data.<field>` and `data.<parent>.<child>` placeholders; a parsed template
is embedded as a token list (literal text, one-segment placeholder,
two-segment placeholder), and the replace pass as concatenation of the
per-token substitutions.
-/

/-- A JSON-like record field value, plus `inherited`: a non-nullish
built-in member reached through the prototype chain or a primitive's
wrapper (e.g. `toString` from `Object.prototype`).  Its actual value is
a host function or object; the model keeps its name and its
non-nullishness, which is all the substitution pipeline observes short
of its host-defined string rendering. -/
inductive RVal
  | str (s : String)
  | num (n : Nat)
  | null
  | obj (fields : List (String × RVal))
  | inherited (name : String)

/-- A response record: an opaque key-value mapping (its own
properties). -/
abbrev Record := List (String × RVal)

/-- Own-property read: first matching own key; `none` is JS
`undefined`. -/
def getOwn (item : Record) (k : String) : Option RVal :=
  (item.find? (fun p => p.1 == k)).map (·.2)

/-- The string-keyed own property names of `Object.prototype` (ECMA-262
§20.1.3 plus the Annex B accessor and `__proto__` members); plain JSON
objects inherit these, so a property read on such an object is only
`undefined` when the key is an own miss *and* not one of them.  Every
name matches the template regex charset `[a-zA-Z0-9_]+`. -/
def objProtoProps : List String :=
  ["constructor", "hasOwnProperty", "isPrototypeOf", "propertyIsEnumerable",
    "toLocaleString", "toString", "valueOf", "__defineGetter__",
    "__defineSetter__", "__lookupGetter__", "__lookupSetter__", "__proto__"]

/-- The string-keyed own property names of `String.prototype` (ECMA-262
§22.1.3 including the Annex B HTML methods). -/
def strProtoProps : List String :=
  ["anchor", "at", "big", "blink", "bold", "charAt", "charCodeAt",
    "codePointAt", "concat", "constructor", "endsWith", "fixed",
    "fontcolor", "fontsize", "includes", "indexOf", "isWellFormed",
    "italics", "lastIndexOf", "link", "localeCompare", "match",
    "matchAll", "normalize", "padEnd", "padStart", "repeat", "replace",
    "replaceAll", "search", "slice", "small", "split", "startsWith",
    "strike", "sub", "substr", "substring", "sup", "toLocaleLowerCase",
    "toLocaleUpperCase", "toLowerCase", "toString", "toUpperCase",
    "toWellFormed", "trim", "trimEnd", "trimLeft", "trimRight",
    "trimStart", "valueOf"]

/-- The string-keyed own property names of `Number.prototype`
(ECMA-262 §21.1.3). -/
def numProtoProps : List String :=
  ["constructor", "toExponential", "toFixed", "toLocaleString",
    "toPrecision", "toString", "valueOf"]

/-- String-keyed property names readable on a built-in function value
(its own `length`/`name` and the `Function.prototype` members). -/
def funcProtoProps : List String :=
  ["length", "name", "arguments", "caller", "constructor", "apply",
    "bind", "call", "toString"]

/-- A canonical array-index property key: digits only, no leading zero
(in JS, `"x"["0"]` is `"x"` but `"x"["00"]` is `undefined`). -/
def canonIndexKey (k : String) : Bool :=
  (decide (k.length > 0) && k.data.all (fun c => c.isDigit))
    && (k == "0" || k.data.headD '0' != '0')

/-- The array index denoted by a canonical index key, if any. -/
def canonIndex? (k : String) : Option Nat :=
  if canonIndexKey k then k.toNat? else none

/-- Property read on a string primitive: the exact `length` and
character-index reads, the standard prototype members as `inherited`,
`undefined` for everything else. -/
def strProp (s : String) (k : String) : Option RVal :=
  if k = "length" then some (.num s.length)
  else
    match canonIndex? k with
    | some i =>
      if i < s.length then some (.str (String.mk [s.data.getD i ' ']))
      else none
    | none =>
      if k ∈ strProtoProps ∨ k ∈ objProtoProps then some (.inherited k)
      else none

/-- Property read on a number primitive: the standard prototype members
as `inherited`, `undefined` otherwise. -/
def numProp (k : String) : Option RVal :=
  if k ∈ numProtoProps ∨ k ∈ objProtoProps then some (.inherited k)
  else none

/-- Property read `item[key]` on a plain JSON object: own properties
first, then the inherited `Object.prototype` members; `none` is JS
`undefined`. -/
def getField (item : Record) (k : String) : Option RVal :=
  match getOwn item k with
  | some v => some v
  | none => if k ∈ objProtoProps then some (RVal.inherited k) else none

/-- JS string coercion of a field value.  The rendering of an inherited
built-in (a host function or `Object.prototype` itself for `__proto__`)
is host-defined, e.g. V8 prints the function source; the model uses an
explicit placeholder and no theorem relies on it. -/
def jsCoerce : RVal → String
  | .str s => s
  | .num n => toString n
  | .null => "null"
  | .obj _ => "[object Object]"
  | .inherited n => "[builtin " ++ n ++ "]"

/-- `value ?? ''` followed by string coercion: `undefined` and `null`
become the empty string. -/
def nullishToEmpty : Option RVal → String
  | none => ""
  | some .null => ""
  | some v => jsCoerce v

/-- Optional-chaining property access `value?.[key]`: `undefined` and
`null` short-circuit to `undefined`; objects read own then inherited
properties; string and number primitives read their wrapper properties
(`"x"["length"]` is `1`); reads on a built-in function value go through
`Function.prototype`. -/
def jsAccess : Option RVal → String → Option RVal
  | none, _ => none
  | some .null, _ => none
  | some (.obj fs), k => getField fs k
  | some (.str s), k => strProp s k
  | some (.num _), k => numProp k
  | some (.inherited _), k =>
    if k ∈ funcProtoProps ∨ k ∈ objProtoProps then some (.inherited k)
    else none

/-- Substitution for a one-segment placeholder `data.k`
(src/AjaxDivBox.js:304, part_004:192, part_005:184): `item[key] ?? ''`. -/
def resolve1 (item : Record) (k : String) : String :=
  nullishToEmpty (getField item k)

/-- Substitution for a two-segment placeholder `data.k1.k2`
(src/AjaxDivBox.js:293-301, part_004:182-190): walk the path with
`value?.[key]`, break on `undefined`, then `value ?? ''`. -/
def resolve2 (item : Record) (k1 k2 : String) : String :=
  nullishToEmpty (jsAccess (jsAccess (some (.obj item)) k1) k2)

/-- One token of a parsed template region. -/
inductive Tok
  | lit (s : String)
  | ph1 (key : String)
  | ph2 (k1 k2 : String)
deriving DecidableEq, Repr

/-- Value substituted for one template token. -/
def renderTok (item : Record) : Tok → String
  | .lit s => s
  | .ph1 k => resolve1 item k
  | .ph2 k1 k2 => resolve2 item k1 k2

/-- The substituted template: concatenation of per-token substitutions. -/
def renderSubst (item : Record) : List Tok → String
  | [] => ""
  | t :: ts => renderTok item t ++ renderSubst item ts

/-- One token of a part_005 template region: part_005's `_renderTemplate`
has only the one-segment replace pass. -/
inductive Tok5
  | lit (s : String)
  | ph (key : String)
deriving DecidableEq, Repr

/-- part_005's substituted template. -/
def renderSubst5 (row : Record) : List Tok5 → String
  | [] => ""
  | .lit s :: ts => s ++ renderSubst5 row ts
  | .ph k :: ts => resolve1 row k ++ renderSubst5 row ts

/-- Render configuration of `AjaxDivBox` / part_004's `AjaxTable`: the
optional caller-supplied render function (`onBox`/`onRow`) and the
resolved template region (`none` when `getElementById` finds nothing). -/
structure RenderCfg where
  onBox : Option (Record → String) := none
  tpl : Option (List Tok) := none

/-- Render configuration of part_005's `AjaxTable`. -/
structure Render5Cfg where
  onRow : Option (Record → String) := none
  tpl : Option (List Tok5) := none

/-- `item.html !== undefined && item.html !== null` guard value. -/
def isNullR : RVal → Bool
  | .null => true
  | _ => false

/-- JS truthiness of a field value (part_004's `if (row.html)`). -/
def truthyR : RVal → Bool
  | .str s => s ≠ ""
  | .num n => n ≠ 0
  | .null => false
  | .obj _ => true
  | .inherited _ => true

/-- The record's pre-rendered HTML field. -/
def htmlField (item : Record) : Option RVal := getField item "html"

/-- Template-or-nothing fallback shared by the strategies below. -/
def renderTemplateDivRest (cfg : RenderCfg) (item : Record) : String :=
  match cfg.onBox with
  | some f => f item
  | none =>
    match cfg.tpl with
    | none => ""
    | some toks => renderSubst item toks

/-- `AjaxDivBox._renderTemplate` (src/AjaxDivBox.js:273-307): per-item
`html` field first (when neither `undefined` nor `null`), then `onBox`,
then the template region (empty markup when the template is missing). -/
def renderTemplateDiv (cfg : RenderCfg) (item : Record) : String :=
  match htmlField item with
  | some v => if isNullR v then renderTemplateDivRest cfg item else jsCoerce v
  | none => renderTemplateDivRest cfg item

/-- Template fallback of part_004's `_renderTemplate`. -/
def renderTemplate4Tpl (cfg : RenderCfg) (row : Record) : String :=
  match cfg.tpl with
  | none => ""
  | some toks => renderSubst row toks

/-- part_004 `AjaxTable._renderTemplate` (part_004:174-194): `onRow`
first, then a *truthy* `row.html`, then the template region. -/
def renderTemplate4 (cfg : RenderCfg) (row : Record) : String :=
  match cfg.onBox with
  | some f => f row
  | none =>
    match htmlField row with
    | some v => if truthyR v then jsCoerce v else renderTemplate4Tpl cfg row
    | none => renderTemplate4Tpl cfg row

/-- part_005 `AjaxTable._renderTemplate` (part_005:179-186): `onRow`
first, else the template region; the per-row `html` field is never
consulted. -/
def renderTemplate5 (cfg : Render5Cfg) (row : Record) : String :=
  match cfg.onRow with
  | some f => f row
  | none =>
    match cfg.tpl with
    | none => ""
    | some toks => renderSubst5 row toks

/-- C3 counterexample — the claim asserts the pre-rendered HTML field
always takes precedence over the configured render function; in part_004's
`AjaxTable._renderTemplate` the `onRow` function is consulted *first*:
with `onRow` returning `"custom"` and a record whose `html` field is
`"pre"`, the renderer yields `"custom"`, not the claimed `"pre"`. -/
theorem render_onRow_over_html_counterexample :
    renderTemplate4 ⟨some (fun _ => "custom"), none⟩ [("html", RVal.str "pre")]
      ≠ "pre" := by decide

/-- C3 (amended) — strategy order per widget: in `AjaxDivBox` a
non-null `html` field wins over everything and `onBox` wins over the
template; in part_004's `AjaxTable`, `onRow` wins over the `html` field,
and a truthy `html` field wins over the template; in part_005's
`AjaxTable` only `onRow` and the template are consulted. -/
theorem render_strategy_order :
    (∀ (cfg : RenderCfg) (item : Record) (v : RVal),
        htmlField item = some v → isNullR v = false →
        renderTemplateDiv cfg item = jsCoerce v)
    ∧ (∀ (cfg : RenderCfg) (item : Record) (f : Record → String),
        htmlField item = none ∨ htmlField item = some RVal.null →
        cfg.onBox = some f →
        renderTemplateDiv cfg item = f item)
    ∧ (∀ (cfg : RenderCfg) (row : Record) (f : Record → String),
        cfg.onBox = some f → renderTemplate4 cfg row = f row)
    ∧ (∀ (cfg : RenderCfg) (row : Record) (v : RVal),
        cfg.onBox = none → htmlField row = some v → truthyR v = true →
        renderTemplate4 cfg row = jsCoerce v)
    ∧ (∀ (cfg : Render5Cfg) (row : Record) (f : Record → String),
        cfg.onRow = some f → renderTemplate5 cfg row = f row) := by
  refine ⟨?_, ?_, ?_, ?_, ?_⟩
  · intro cfg item v h1 h2
    simp [renderTemplateDiv, h1, h2]
  · intro cfg item f h1 h2
    rcases h1 with h1 | h1
    · simp [renderTemplateDiv, renderTemplateDivRest, h1, h2]
    · simp [renderTemplateDiv, renderTemplateDivRest, h1, h2, isNullR]
  · intro cfg row f h
    simp [renderTemplate4, h]
  · intro cfg row v h1 h2 h3
    simp [renderTemplate4, h1, h2, h3]
  · intro cfg row f h
    simp [renderTemplate5, h]

/-- Witness for `render_strategy_order` at concrete inputs: the same
record with `html = "pre"` renders as `"pre"` in `AjaxDivBox` but as
`"custom"` in part_004's `AjaxTable` when a render function returning
`"custom"` is configured. -/
theorem render_strategy_order_witness :
    renderTemplateDiv ⟨some (fun _ => "custom"), none⟩
        [("html", RVal.str "pre")] = "pre"
    ∧ renderTemplate4 ⟨some (fun _ => "custom"), none⟩
        [("html", RVal.str "pre")] = "custom"
    ∧ renderTemplate5 ⟨some (fun _ => "custom"), none⟩
        [("html", RVal.str "pre")] = "custom" := by
  refine ⟨?_, ?_, ?_⟩
  · exact (render_strategy_order.1 ⟨some (fun _ => "custom"), none⟩
      [("html", RVal.str "pre")] (RVal.str "pre") rfl rfl).trans rfl
  · exact (render_strategy_order.2.2.1 ⟨some (fun _ => "custom"), none⟩
      [("html", RVal.str "pre")] (fun _ => "custom") rfl).trans rfl
  · exact (render_strategy_order.2.2.2.2 ⟨some (fun _ => "custom"), none⟩
      [("html", RVal.str "pre")] (fun _ => "custom") rfl).trans rfl

/-- Guard under which a placeholder substitutes to the empty string in
JavaScript: a one-segment field whose read yields `undefined` (own miss
and not an inherited `Object.prototype` member), and a two-segment path
whose first segment reads as `undefined` or `null` (optional chaining
then short-circuits).  A primitive first segment is *not* allowed: its
wrapper properties (e.g. `length`) can substitute non-empty text. -/
def tokOkFor (item : Record) : Tok → Bool
  | .lit _ => true
  | .ph1 k => (getField item k).isNone
  | .ph2 k1 _ =>
    match getField item k1 with
    | none => true
    | some .null => true
    | some _ => false

/-- The literal content of a token (placeholders contribute nothing). -/
def tokLit : Tok → String
  | .lit s => s
  | .ph1 _ => ""
  | .ph2 _ _ => ""

/-- The literal parts of a template. -/
def concatLits : List Tok → String
  | [] => ""
  | t :: ts => tokLit t ++ concatLits ts

theorem renderTok_eq_lit_of_ok (item : Record) (t : Tok)
    (h : tokOkFor item t = true) : renderTok item t = tokLit t := by
  cases t with
  | lit s => rfl
  | ph1 k =>
    simp only [tokOkFor, Option.isNone_iff_eq_none] at h
    simp [renderTok, resolve1, h, nullishToEmpty, tokLit]
  | ph2 k1 k2 =>
    have haccess : jsAccess (some (RVal.obj item)) k1 = getField item k1 := rfl
    simp only [renderTok, resolve2, haccess, tokLit]
    cases hf : getField item k1 with
    | none => simp [jsAccess, nullishToEmpty]
    | some v =>
      cases v with
      | null => simp [jsAccess, nullishToEmpty]
      | str s => rw [tokOkFor] at h; rw [hf] at h; simp at h
      | num n => rw [tokOkFor] at h; rw [hf] at h; simp at h
      | obj fs => rw [tokOkFor] at h; rw [hf] at h; simp at h
      | inherited n => rw [tokOkFor] at h; rw [hf] at h; simp at h

/-- C9 counterexample — the claim asserts every two-segment placeholder
whose intermediate segment is missing *or not an object* substitutes to
the empty string.  Over the record with own field `a = "x"`, the
placeholder `data.a.length` has a non-object intermediate, yet
JavaScript property access on the string primitive reads its `length`:
the source substitutes `"1"`, not the empty string.  (Likewise, a
missing one-segment field named after an `Object.prototype` member,
such as `data.toString`, substitutes the inherited member's rendering
rather than the empty string.) -/
theorem primitive_length_counterexample :
    renderSubst [("a", RVal.str "x")] [Tok.ph2 "a" "length"] = "1"
    ∧ renderSubst [("a", RVal.str "x")] [Tok.ph2 "a" "length"] ≠ "" := by
  constructor
  · decide
  · decide

/-- C9 (amended) — for every record and template: a one-segment
placeholder whose field read yields `undefined` (no own field and not an
inherited `Object.prototype` member of that name) substitutes to the
empty string, and a two-segment placeholder whose first segment reads
as `undefined` or `null` substitutes to the empty string (optional
chaining short-circuits): the rendered output is exactly the template's
literal content, and substitution is a total function, so no input can
make it throw.  Primitive intermediates are excluded
(`primitive_length_counterexample`: their wrapper properties can
substitute non-empty text). -/
theorem template_missing_fields_empty (item : Record) (toks : List Tok)
    (h : toks.all (tokOkFor item) = true) :
    renderSubst item toks = concatLits toks := by
  induction toks with
  | nil => rfl
  | cons t ts ih =>
    rw [List.all_cons, Bool.and_eq_true] at h
    show renderTok item t ++ renderSubst item ts = tokLit t ++ concatLits ts
    rw [renderTok_eq_lit_of_ok item t h.1, ih h.2]

/-- Witness for `template_missing_fields_empty`: a record whose own
field `a` is null, a template with a missing one-segment field (not a
prototype member name), a two-segment path through the null `a`, and a
two-segment path with missing head; output is the literal parts only. -/
theorem template_missing_fields_empty_witness :
    renderSubst [("a", RVal.null)]
        [Tok.lit "<b>", Tok.ph1 "missing", Tok.ph2 "a" "b",
          Tok.ph2 "nope" "c", Tok.lit "</b>"]
      = "<b></b>" := by
  exact (template_missing_fields_empty [("a", RVal.null)]
      [Tok.lit "<b>", Tok.ph1 "missing", Tok.ph2 "a" "b",
        Tok.ph2 "nope" "c", Tok.lit "</b>"] (by decide)).trans (by decide)

/-!
## View-states, events and the fetch cycle (claims C2, C5, C6)

Visibility of the four state regions (container, loader, nothing-found
block, error block) is embedded as four booleans.  A fetch cycle is a
pure function of the requested page and the transport outcome: either a
rejection of the promise chain (network failure or JSON parse failure,
carrying the thrown error's `message`) or an HTTP response with an ok
flag and a parsed JSON body.  `AjaxDivBox.fetchData` is modelled on its
`fetch` backend (src/AjaxDivBox.js:214), which never consults the HTTP
status: only a body with `ok === false` or a rejection reaches the catch
block.
-/

/-- The four mutually-exclusive view-states of the spec. -/
inductive ViewState
  | loading
  | content
  | empty
  | error
deriving DecidableEq, Repr

/-- Visibility of the four state regions. -/
structure Vis where
  container : Bool
  loader : Bool
  nothingFound : Bool
  error : Bool
deriving DecidableEq, Repr

/-- How many of the four regions are visible. -/
def visCount (v : Vis) : Nat :=
  (cond v.container 1 0) + (cond v.loader 1 0) +
    (cond v.nothingFound 1 0) + (cond v.error 1 0)

/-- Which of the four optional region elements resolved at construction
(the container is required but `_setState` still guards it). -/
structure ElemsPresent where
  container : Bool
  loader : Bool
  nothingFound : Bool
  error : Bool
deriving DecidableEq, Repr

/-- `AjaxDivBox._setState` (src/AjaxDivBox.js:185-199, identical in
part_004:109-122): hide all four regions, then reveal the requested one
when its element exists; for `error` also write the message into the
message sub-element.  Returns the new visibility and the message
written. -/
def setStateDiv (pres : ElemsPresent) (s : ViewState) (msg : String) :
    Vis × Option String :=
  let base : Vis := ⟨false, false, false, false⟩
  match s with
  | .loading => (if pres.loader then { base with loader := true } else base, none)
  | .content => (if pres.container then { base with container := true } else base, none)
  | .empty => (if pres.nothingFound then { base with nothingFound := true } else base, none)
  | .error =>
    if pres.error then ({ base with error := true }, some msg) else (base, none)

/-- Events emitted through the `_emit` side channel. -/
inductive Event
  | start (page : Nat)
  | rendered (page : Nat)
  | error (msg : String)
  | pageChange (page : Nat)
deriving DecidableEq, Repr

/-- One pagination link descriptor of the response metadata. -/
structure Link where
  label : String
  url : Option String
  active : Bool
deriving DecidableEq, Repr

/-- Pagination metadata (`response[metaKey]`). -/
structure Meta where
  current_page : Option Nat := none
  last_page : Option Nat := none
  links : Option (List Link) := none
deriving DecidableEq, Repr

/-- A parsed JSON response body (fields absent from the JSON are `none`;
JSON `null` fields are likewise `none`, matching every guard used by the
source on them). -/
structure Envelope where
  ok : Option Bool := none
  message : Option String := none
  html : Option String := none
  dataField : Option (List Record) := none
  meta : Option Meta := none

/-- The observable outcome of the transport for one fetch. -/
inductive Outcome
  | reject (msg : Option String)
  | body (httpOk : Bool) (env : Envelope)

/-- JS `m || d` for an optional string: the fallback on `undefined`,
`null` or the empty string. -/
def jsOrStr (m : Option String) (d : String) : String :=
  match m with
  | some s => if s = "" then d else s
  | none => d

/-- `AjaxDivBox`'s generic failure message (src/AjaxDivBox.js:242). -/
def failMsgDiv : String := "Failed to load data."

/-- `_renderBoxes` (src/AjaxDivBox.js:252-267): the concatenated markup
of all records. -/
def renderBoxesDiv (cfg : RenderCfg) : List Record → String
  | [] => ""
  | r :: rs => renderTemplateDiv cfg r ++ renderBoxesDiv cfg rs

/-- The observable result of one `AjaxDivBox.fetchData` cycle. -/
structure FetchResult where
  state : ViewState
  message : Option String
  events : List Event
  containerHTML : Option String
  lastMeta : Option Meta

/-- `AjaxDivBox.fetchData` (src/AjaxDivBox.js:205-246), `fetch` backend:
emit `start`; on a response, parse the body unconditionally (the HTTP
status is never consulted), throw it when it carries `ok === false`;
store the metadata, render pre-rendered `html` or the records; in the
catch block derive `err?.message || 'Failed to load data.'`, switch to
the error state and emit `error`.  The pagination region is modelled
separately (`renderPaginationDiv`). -/
def fetchDataDiv (cfg : RenderCfg) (page : Nat) (o : Outcome) : FetchResult :=
  match o with
  | .reject m =>
    let msg := jsOrStr m failMsgDiv
    { state := .error, message := some msg,
      events := [.start page, .error msg],
      containerHTML := none, lastMeta := none }
  | .body _ env =>
    if env.ok = some false then
      let msg := jsOrStr env.message failMsgDiv
      { state := .error, message := some msg,
        events := [.start page, .error msg],
        containerHTML := none, lastMeta := none }
    else
      let meta := env.meta.getD {}
      match env.html with
      | some h =>
        { state := if 0 < h.trim.length then ViewState.content else .empty,
          message := none, events := [.start page, .rendered page],
          containerHTML := some h, lastMeta := some meta }
      | none =>
        let data := env.dataField.getD []
        { state := if 0 < data.length then ViewState.content else .empty,
          message := none, events := [.start page, .rendered page],
          containerHTML := some (renderBoxesDiv cfg data),
          lastMeta := some meta }

/-- part_005's generic failure message (part_005:148). -/
def failMsg5 : String := "Table Render Error!"

/-- The observable result of one part_005 `AjaxTable.fetchData` cycle. -/
structure Table5Result where
  vis : Vis
  errorText : String
  events : List Event
deriving DecidableEq, Repr

/-- part_005 `AjaxTable.fetchData` (part_005:118-164): hide container,
show loader, clear error and nothing-found; `fetch` path *does* check
`res.ok` and throws the parsed body on failure; the catch block shows
the error block via `_showError` — which also re-shows the container —
and emits `rendered` (never `error`); a successful cycle shows the
container, and on zero rows `_showNothingFound` swaps container for the
nothing-found block. -/
def fetchDataTable5 (page : Nat) (o : Outcome) : Table5Result :=
  match o with
  | .reject m =>
    { vis := ⟨true, false, false, true⟩, errorText := jsOrStr m failMsg5,
      events := [.start page, .rendered page] }
  | .body httpOk env =>
    if httpOk then
      let rows := env.dataField.getD []
      if 0 < rows.length then
        { vis := ⟨true, false, false, false⟩, errorText := "",
          events := [.start page, .rendered page] }
      else
        { vis := ⟨false, false, true, false⟩, errorText := "",
          events := [.start page, .rendered page] }
    else
      { vis := ⟨true, false, false, true⟩,
        errorText := jsOrStr env.message failMsg5,
        events := [.start page, .rendered page] }

/-- C2 counterexample — the claim asserts an HTTP 500 response with body
`\x7b"message":"Server exploded"\x7d` yields view-state `error` in
`fetchData`.  In `AjaxDivBox`'s `fetch` backend the response status is
never checked and this body carries no `ok:false`, so the cycle takes
the success path and ends in view-state `empty` (no records), never
reaching the error state or the `error` event. -/
theorem fetch_http500_not_error_counterexample :
    (fetchDataDiv ⟨none, none⟩ 1 (Outcome.body false
        { message := some "Server exploded" })).state = ViewState.empty
    ∧ (fetchDataDiv ⟨none, none⟩ 1 (Outcome.body false
        { message := some "Server exploded" })).state ≠ ViewState.error := by
  constructor
  · decide
  · decide

/-- C2 (amended) — failures that reach `AjaxDivBox`'s catch block (a
transport rejection, or a body carrying `ok === false`) transition to
the error state with message `err?.message || 'Failed to load data.'`
(the transport-level message; no nested server message field is
consulted), emit `error` with that message, render nothing and store no
metadata; the cycle is a total function, so nothing propagates to the
caller.  In part_005's `AjaxTable`, whose `fetch` path does check
`res.ok` and throws the parsed body, a non-ok response surfaces the
body's `message` field in the error text — but no `error` event exists
there (it emits `rendered`). -/
theorem fetch_failure_path_characterization :
    (∀ (cfg : RenderCfg) (p : Nat) (m : Option String),
        fetchDataDiv cfg p (Outcome.reject m)
          = { state := ViewState.error,
              message := some (jsOrStr m failMsgDiv),
              events := [Event.start p, Event.error (jsOrStr m failMsgDiv)],
              containerHTML := none, lastMeta := none })
    ∧ (∀ (cfg : RenderCfg) (p : Nat) (s : Bool) (env : Envelope),
        env.ok = some false →
        fetchDataDiv cfg p (Outcome.body s env)
          = { state := ViewState.error,
              message := some (jsOrStr env.message failMsgDiv),
              events := [Event.start p,
                Event.error (jsOrStr env.message failMsgDiv)],
              containerHTML := none, lastMeta := none })
    ∧ (∀ (p : Nat) (env : Envelope),
        (fetchDataTable5 p (Outcome.body false env)).errorText
            = jsOrStr env.message failMsg5
        ∧ (fetchDataTable5 p (Outcome.body false env)).vis.error = true
        ∧ ∀ msg, Event.error msg ∉ (fetchDataTable5 p (Outcome.body false env)).events) := by
  refine ⟨?_, ?_, ?_⟩
  · intro cfg p m
    rfl
  · intro cfg p s env h
    simp [fetchDataDiv, h]
  · intro p env
    refine ⟨rfl, rfl, ?_⟩
    intro msg hmem
    simp [fetchDataTable5] at hmem

/-- Witness for `fetch_failure_path_characterization` at concrete
inputs: a rejected transport, a body with `ok:false`, and part_005's
500-with-message scenario. -/
theorem fetch_failure_path_characterization_witness :
    (fetchDataDiv ⟨none, none⟩ 2 (Outcome.reject (some "netfail"))).state
        = ViewState.error
    ∧ (fetchDataDiv ⟨none, none⟩ 2 (Outcome.body true
        { ok := some false, message := some "bad" })).message = some "bad"
    ∧ (fetchDataTable5 3 (Outcome.body false
        { message := some "Server exploded" })).errorText = "Server exploded" := by
  refine ⟨?_, ?_, ?_⟩
  · exact (congrArg FetchResult.state
      (fetch_failure_path_characterization.1 ⟨none, none⟩ 2 (some "netfail"))).trans rfl
  · exact (congrArg FetchResult.message
      (fetch_failure_path_characterization.2.1 ⟨none, none⟩ 2 true
        { ok := some false, message := some "bad" } rfl)).trans (by decide)
  · exact ((fetch_failure_path_characterization.2.2 3
      { message := some "Server exploded" }).1).trans (by decide)

/-- C5 counterexample — the claim asserts at most one of the four state
regions is ever visible.  part_005's `AjaxTable` error path
(`_showError`, part_005:242-251) reveals the error block *and*
re-reveals the container: after a failed fetch two regions are visible
at once. -/
theorem showError_two_regions_counterexample :
    ¬ visCount (fetchDataTable5 1 (Outcome.reject (some "boom"))).vis ≤ 1 := by
  decide

/-- C5 (amended) — mutual exclusion is enforced by `_setState` in
`AjaxDivBox` and part_004's `AjaxTable`: after any transition at most
one region is visible, and in the error state (with the error element
present) the message is written; part_005's `AjaxTable` has no such
switcher and its error path violates the invariant
(`showError_two_regions_counterexample`). -/
theorem setState_mutual_exclusion :
    (∀ (pres : ElemsPresent) (s : ViewState) (msg : String),
        visCount (setStateDiv pres s msg).1 ≤ 1)
    ∧ (∀ (pres : ElemsPresent) (msg : String),
        pres.error = true →
        (setStateDiv pres ViewState.error msg).2 = some msg) := by
  constructor
  · intro pres s msg
    cases s with
    | loading =>
      by_cases h : pres.loader = true
      · simp [setStateDiv, h, visCount]
      · simp only [Bool.not_eq_true] at h
        simp [setStateDiv, h, visCount]
    | content =>
      by_cases h : pres.container = true
      · simp [setStateDiv, h, visCount]
      · simp only [Bool.not_eq_true] at h
        simp [setStateDiv, h, visCount]
    | empty =>
      by_cases h : pres.nothingFound = true
      · simp [setStateDiv, h, visCount]
      · simp only [Bool.not_eq_true] at h
        simp [setStateDiv, h, visCount]
    | error =>
      by_cases h : pres.error = true
      · simp [setStateDiv, h, visCount]
      · simp only [Bool.not_eq_true] at h
        simp [setStateDiv, h, visCount]
  · intro pres msg h
    simp [setStateDiv, h]

/-- Witness for `setState_mutual_exclusion`: with every region element
present, switching to the error state shows one region and writes the
message. -/
theorem setState_mutual_exclusion_witness :
    visCount (setStateDiv ⟨true, true, true, true⟩ ViewState.error "boom").1 ≤ 1
    ∧ (setStateDiv ⟨true, true, true, true⟩ ViewState.error "boom").2
        = some "boom" :=
  ⟨setState_mutual_exclusion.1 ⟨true, true, true, true⟩ ViewState.error "boom",
    setState_mutual_exclusion.2 ⟨true, true, true, true⟩ "boom" rfl⟩

/-- `AjaxDivBox.refresh` (src/AjaxDivBox.js:119-123, identical in
part_004:62-65): `this.lastMeta?.current_page || 1` (JS `||`, so a `0`
or absent current page falls back to 1). -/
def refreshPageDiv (lastMeta : Option Meta) : Nat :=
  match lastMeta with
  | none => 1
  | some m =>
    match m.current_page with
    | none => 1
    | some n => if n = 0 then 1 else n

/-- part_005 `AjaxTable.refresh` (part_005:257-259) calls `init()`,
whose `page` parameter defaults to 1: every refresh fetches page 1. -/
def table5RefreshPage : Nat := 1

/-- C6 counterexample — the claim asserts `refresh()` after a successful
fetch of page `p` issues a fetch for the same page `p` (here `p = 3`);
part_005's `AjaxTable.refresh` re-runs `init()` and always fetches page
1. -/
theorem table5_refresh_resets_page_counterexample :
    table5RefreshPage = 1 ∧ table5RefreshPage ≠ 3 := by
  constructor
  · rfl
  · decide

/-- C6 (amended) — in `AjaxDivBox` (and part_004's `AjaxTable`), after a
successful fetch of page `p` whose stored metadata reports
`current_page = p` (nonzero), a parameterless `refresh()` fetches page
`p` again, and against an unchanged response the whole cycle result —
rendered markup, view-state, events, stored metadata — is identical
(idempotence); part_005's `AjaxTable.refresh` instead restarts from page
1 (`table5_refresh_resets_page_counterexample`). -/
theorem refresh_repeats_page_idempotent (cfg : RenderCfg) (p : Nat)
    (s : Bool) (env : Envelope)
    (hok : ¬ env.ok = some false)
    (hcp : (env.meta.getD {}).current_page = some p)
    (hp : p ≠ 0) :
    refreshPageDiv (fetchDataDiv cfg p (Outcome.body s env)).lastMeta = p
    ∧ fetchDataDiv cfg
        (refreshPageDiv (fetchDataDiv cfg p (Outcome.body s env)).lastMeta)
        (Outcome.body s env)
      = fetchDataDiv cfg p (Outcome.body s env) := by
  have hlast : (fetchDataDiv cfg p (Outcome.body s env)).lastMeta
      = some (env.meta.getD {}) := by
    cases hh : env.html with
    | some h => simp [fetchDataDiv, hok, hh]
    | none => simp [fetchDataDiv, hok, hh]
  have hpage : refreshPageDiv (fetchDataDiv cfg p (Outcome.body s env)).lastMeta
      = p := by
    rw [hlast]
    simp [refreshPageDiv, hcp, hp]
  exact ⟨hpage, by rw [hpage]⟩

/-- Witness for `refresh_repeats_page_idempotent`: a successful fetch of
page 3 with metadata reporting current page 3; refresh repeats page 3. -/
theorem refresh_repeats_page_idempotent_witness :
    refreshPageDiv (fetchDataDiv ⟨none, none⟩ 3 (Outcome.body true
        { meta := some { current_page := some 3 } })).lastMeta = 3 :=
  (refresh_repeats_page_idempotent ⟨none, none⟩ 3 true
    { meta := some { current_page := some 3 } }
    (by decide) (by decide) (by decide)).1

/-!
## Pagination rendering (claim C7)
-/

/-- Single scan removing every `&laquo;` / `&raquo;` occurrence, the
effect of `label.replace(/&laquo;|&raquo;/g, '')`
(src/AjaxDivBox.js:340, part_004:213). -/
def stripG : List Char → List Char
  | '&' :: 'l' :: 'a' :: 'q' :: 'u' :: 'o' :: ';' :: rest => stripG rest
  | '&' :: 'r' :: 'a' :: 'q' :: 'u' :: 'o' :: ';' :: rest => stripG rest
  | c :: rest => c :: stripG rest
  | [] => []

/-- String-level wrapper for `stripG`. -/
def stripGuillemets (s : String) : String := String.mk (stripG s.data)

/-- `link.label.includes('...')`. -/
def hasEllipsis (s : String) : Bool := (s.splitOn "...").length > 1

/-- JS truthiness of `link.url` (absent, null or empty string are falsy). -/
def urlTruthy (u : Option String) : Bool :=
  match u with
  | some s => s ≠ ""
  | none => false

/-- One rendered pagination control. -/
inductive PagItem
  | ellipsis
  | button (label : String) (disabled : Bool) (active : Bool)
deriving DecidableEq, Repr

/-- The pagination region: hidden flag and rendered children. -/
structure PagState where
  hidden : Bool
  items : List PagItem
deriving DecidableEq, Repr

/-- The JS comparison `meta.last_page <= 1` (false when `last_page` is
absent: `undefined <= 1` is false). -/
def lastPageLE1 (m : Meta) : Bool :=
  match m.last_page with
  | some n => n ≤ 1
  | none => false

/-- One link descriptor rendered to a control (src/AjaxDivBox.js:326-350,
part_004:207-227): an ellipsis label becomes a disabled placeholder,
anything else a button, disabled when the link has no target URL or is
the active page, guillemet entities stripped from the label. -/
def linkItemDiv (l : Link) : PagItem :=
  if hasEllipsis l.label then PagItem.ellipsis
  else PagItem.button (stripGuillemets l.label) (!urlTruthy l.url || l.active) l.active

/-- `AjaxDivBox._renderPagination` (src/AjaxDivBox.js:313-356): clear the
region, hide it and stop when the link metadata is absent or
`last_page <= 1`, otherwise reveal it and render every link. -/
def renderPaginationDiv (m : Meta) (pag : PagState) : PagState :=
  let cleared : PagState := { pag with items := [] }
  if m.links.isNone || lastPageLE1 m then { cleared with hidden := true }
  else { hidden := false, items := (m.links.getD []).map linkItemDiv }

/-- part_004 `AjaxTable._renderPagination` (part_004:196-233): same guard
but without the clearing step (the region was already cleared and hidden
at the start of the fetch cycle, part_004:127-131). -/
def renderPagination4 (m : Meta) (pag : PagState) : PagState :=
  if m.links.isNone || lastPageLE1 m then { pag with hidden := true }
  else { hidden := false, items := (m.links.getD []).map linkItemDiv }

/-- The pagination region at the start of a part_004 fetch cycle: cleared
and hidden (part_004:127-131). -/
def fetchStart4Pag : PagState := ⟨true, []⟩

/-- The pagination region at the end of a successful part_004 fetch
cycle. -/
def fetchCycle4Pag (m : Meta) : PagState := renderPagination4 m fetchStart4Pag

/-- C7 (confirmed) — when the link metadata is absent or reports
`last_page <= 1`, `AjaxDivBox`'s pagination region ends the render
hidden and cleared whatever the links array contains, and part_004's
fetch cycle likewise ends with the region hidden and cleared. -/
theorem pagination_hidden_single_page (m : Meta) (pag : PagState)
    (h : m.links = none ∨ lastPageLE1 m = true) :
    renderPaginationDiv m pag = ⟨true, []⟩
    ∧ fetchCycle4Pag m = ⟨true, []⟩ := by
  have hcond : (m.links.isNone || lastPageLE1 m) = true := by
    rcases h with h | h
    · simp [h]
    · simp [h]
  constructor
  · simp [renderPaginationDiv, hcond]
  · simp [fetchCycle4Pag, renderPagination4, fetchStart4Pag, hcond]

/-- Witness for `pagination_hidden_single_page`: metadata reporting a
single page with a non-empty links array still hides and clears a
previously visible, non-empty pagination region. -/
theorem pagination_hidden_single_page_witness :
    renderPaginationDiv
        { last_page := some 1, links := some [⟨"1", some "/api?page=1", true⟩] }
        ⟨false, [PagItem.ellipsis]⟩ = ⟨true, []⟩ :=
  (pagination_hidden_single_page
    { last_page := some 1, links := some [⟨"1", some "/api?page=1", true⟩] }
    ⟨false, [PagItem.ellipsis]⟩ (Or.inr (by decide))).1

/-!
## Filter mapping (claim C8)
-/

/-- JS property assignment `o[k] = v` on an object embedded as an entry
list: overwrite in place when the key exists, else append. -/
def jsSetStr (o : List (String × String)) (k v : String) :
    List (String × String) :=
  if (o.find? (fun p => p.1 == k)).isSome then
    o.map (fun p => if p.1 == k then (k, v) else p)
  else o ++ [(k, v)]

/-- `AjaxDivBox._updateFilters` (src/AjaxDivBox.js:149-163, identical in
part_004:88-99): rebuild from scratch; only named inputs reach the
`FormData`, and only truthy (non-empty) values are kept:
`if (value) this.filters[key] = value`. -/
def updateFiltersDiv (inputs : List (String × String)) :
    List (String × String) :=
  (inputs.filter (fun p => p.1 ≠ "")).foldl
    (fun acc p => if p.2 ≠ "" then jsSetStr acc p.1 p.2 else acc) []

/-- part_005 `AjaxTable._updateFilters` (part_005:102-109):
`if (input.value && input.name) this.filters[input.name] = input.value`. -/
def updateFilters5 (inputs : List (String × String)) :
    List (String × String) :=
  inputs.foldl
    (fun acc p => if p.2 ≠ "" ∧ p.1 ≠ "" then jsSetStr acc p.1 p.2 else acc) []

theorem mem_jsSetStr (acc : List (String × String)) (k v : String)
    (kv : String × String) (h : kv ∈ jsSetStr acc k v) :
    kv ∈ acc ∨ kv = (k, v) := by
  unfold jsSetStr at h
  by_cases hs : ((acc.find? (fun p => p.1 == k)).isSome : Prop)
  · rw [if_pos hs] at h
    rw [List.mem_map] at h
    obtain ⟨p, hp, hpe⟩ := h
    by_cases hk : (p.1 == k : Prop)
    · right
      rw [if_pos hk] at hpe
      exact hpe.symm
    · left
      rw [if_neg hk] at hpe
      rw [← hpe]
      exact hp
  · rw [if_neg hs] at h
    rw [List.mem_append] at h
    rcases h with h | h
    · exact Or.inl h
    · right
      simpa using h

theorem foldl_jsSet_no_empty (g : String × String → Prop) [DecidablePred g]
    (hg : ∀ p, g p → p.2 ≠ "")
    (inputs : List (String × String)) :
    ∀ (acc : List (String × String)), (∀ kv ∈ acc, kv.2 ≠ "") →
      ∀ kv ∈ inputs.foldl
        (fun a p => if g p then jsSetStr a p.1 p.2 else a) acc,
        kv.2 ≠ "" := by
  induction inputs with
  | nil =>
    intro acc hacc kv hkv
    exact hacc kv hkv
  | cons p ps ih =>
    intro acc hacc kv hkv
    rw [List.foldl_cons] at hkv
    by_cases hp : g p
    · rw [if_pos hp] at hkv
      refine ih (jsSetStr acc p.1 p.2) ?_ kv hkv
      intro kw hkw
      rcases mem_jsSetStr acc p.1 p.2 kw hkw with hin | heq
      · exact hacc kw hin
      · rw [heq]
        exact hg p hp
    · rw [if_neg hp] at hkv
      exact ih acc hacc kv hkv

/-- C8 (confirmed) — after any rebuild of the filter mapping (in
`AjaxDivBox`/part_004's `_updateFilters` and in part_005's), no entry
carries an empty-string value; `FormData` values are strings, so no
null value can enter at all. -/
theorem filters_no_empty_values (inputs : List (String × String))
    (k v : String) :
    ((k, v) ∈ updateFiltersDiv inputs → v ≠ "")
    ∧ ((k, v) ∈ updateFilters5 inputs → v ≠ "") := by
  constructor
  · intro hmem
    exact foldl_jsSet_no_empty (fun p => p.2 ≠ "") (fun p h => h)
      (inputs.filter (fun p => p.1 ≠ "")) [] (by simp) (k, v) hmem
  · intro hmem
    exact foldl_jsSet_no_empty (fun p => p.2 ≠ "" ∧ p.1 ≠ "") (fun p h => h.1)
      inputs [] (by simp) (k, v) hmem

/-- Witness for `filters_no_empty_values`: a region with a filled input
`a`, an empty input `b` and an unnamed input; `a` survives with a
non-empty value, and the claim applies to it. -/
theorem filters_no_empty_values_witness :
    ("a", "1") ∈ updateFiltersDiv [("a", "1"), ("b", ""), ("", "x")]
    ∧ "1" ≠ "" := by
  refine ⟨by decide, ?_⟩
  exact (filters_no_empty_values [("a", "1"), ("b", ""), ("", "x")] "a" "1").1
    (by decide)

/-!
## Filter-event debouncing (claim C4)

A session of filter changes is embedded as a list of (timestamp, input
kind) pairs in event order.  The shared cancel-and-restart timer
(`clearTimeout` then `setTimeout(fn, 300)`) fires at `t + 300` unless a
later qualifying event arrives strictly before that; `debounceFires`
returns the times at which the debounced recomputation-and-fetch runs.
-/

/-- The kind of filter control that changed. -/
inductive FilterInput
  | text
  | select
deriving DecidableEq, BEq, Repr

/-- Firing times of a cancel-and-restart debounce timer of window `w`
over an ordered list of event times. -/
def debounceFires (w : Nat) : List Nat → List Nat
  | [] => []
  | [t] => [t + w]
  | t :: t' :: ts =>
    if t' < t + w then debounceFires w (t' :: ts)
    else (t + w) :: debounceFires w (t' :: ts)

/-- `AjaxDivBox._bindFilterEvents` (src/AjaxDivBox.js:129-143): a single
delegated `input` listener debounces *every* matching control — text
inputs and selects alike — through one 300ms timer.  part_004
(part_004:67-86) routes selects through `change` but into the same
debounced handler. -/
def divBoxFetchTimes (evs : List (Nat × FilterInput)) : List Nat :=
  debounceFires 300 (evs.map Prod.fst)

/-- part_005 `AjaxTable._bindFilterEvents` (part_005:69-99): text/search
inputs share one 300ms debounce timer, select changes recompute and
fetch immediately. -/
def table5FetchTimes (evs : List (Nat × FilterInput)) : List Nat :=
  ((evs.filter (fun e => e.2 == FilterInput.select)).map Prod.fst) ++
    debounceFires 300
      ((evs.filter (fun e => e.2 == FilterInput.text)).map Prod.fst)

/-- Every event of the session happens at or after the previous one and
strictly inside its debounce window. -/
def chainWithin (w : Nat) : List Nat → Bool
  | t :: t' :: ts =>
    (decide (t ≤ t') && decide (t' < t + w)) && chainWithin w (t' :: ts)
  | _ => true

theorem debounceFires_chain (w t : Nat) (ts : List Nat)
    (h : chainWithin w (t :: ts) = true) :
    debounceFires w (t :: ts)
      = [(t :: ts).getLast (List.cons_ne_nil t ts) + w] := by
  induction ts generalizing t with
  | nil => rfl
  | cons t' rest ih =>
    rw [chainWithin] at h
    simp only [Bool.and_eq_true, decide_eq_true_eq] at h
    obtain ⟨⟨hle, hlt⟩, hchain⟩ := h
    show debounceFires w (t :: t' :: rest) = _
    rw [debounceFires, if_pos hlt, ih t' hchain]
    simp [List.getLast_cons]

theorem map_fst_pair (l : List Nat) (k : FilterInput) :
    (l.map (fun u => (u, k))).map Prod.fst = l := by
  induction l with
  | nil => rfl
  | cons a as ih =>
    rw [List.map_cons, List.map_cons, ih]

/-- C4 counterexample — the claim asserts a selection-input change
fetches immediately, without debouncing.  In `AjaxDivBox` a lone select
change at time 0 produces its single fetch only at time 300 — select
changes go through the same 300ms debounce as text input. -/
theorem select_change_debounced_counterexample :
    divBoxFetchTimes [(0, FilterInput.select)] = [300]
    ∧ (0 : Nat) ∉ divBoxFetchTimes [(0, FilterInput.select)] := by
  constructor
  · rfl
  · decide

/-- C4 (amended) — any nonempty session of filter changes, each at or
after the previous one and strictly within the 300ms window, produces
exactly one recomputation-and-fetch (for page 1), 300ms after the last
change: in `AjaxDivBox` this holds for text *and select* changes alike
(selects are debounced too), in part_005's `AjaxTable` for text changes,
while part_005's select changes fetch immediately. -/
theorem filter_debounce_single_fetch (t : Nat) (ts : List Nat)
    (h : chainWithin 300 (t :: ts) = true) :
    divBoxFetchTimes ((t :: ts).map (fun u => (u, FilterInput.select)))
        = [(t :: ts).getLast (List.cons_ne_nil t ts) + 300]
    ∧ table5FetchTimes ((t :: ts).map (fun u => (u, FilterInput.text)))
        = [(t :: ts).getLast (List.cons_ne_nil t ts) + 300]
    ∧ (∀ u : Nat, table5FetchTimes [(u, FilterInput.select)] = [u]) := by
  refine ⟨?_, ?_, ?_⟩
  · unfold divBoxFetchTimes
    rw [map_fst_pair]
    exact debounceFires_chain 300 t ts h
  · unfold table5FetchTimes
    have hsel : ((t :: ts).map (fun u => (u, FilterInput.text))).filter
        (fun e => e.2 == FilterInput.select) = [] := by
      apply List.filter_eq_nil_iff.mpr
      intro e he
      rcases List.mem_map.mp he with ⟨u, hu, rfl⟩
      simp
      rfl
    have htxt : ((t :: ts).map (fun u => (u, FilterInput.text))).filter
        (fun e => e.2 == FilterInput.text)
        = (t :: ts).map (fun u => (u, FilterInput.text)) := by
      apply List.filter_eq_self.mpr
      intro e he
      rcases List.mem_map.mp he with ⟨u, hu, rfl⟩
      simp
      rfl
    rw [hsel, htxt, List.map_nil, List.nil_append, map_fst_pair]
    exact debounceFires_chain 300 t ts h
  · intro u
    rfl

/-- Witness for `filter_debounce_single_fetch`: three select changes at
0, 100 and 250 — each within 300ms of the previous — give exactly one
fetch at 550 in `AjaxDivBox`. -/
theorem filter_debounce_single_fetch_witness :
    divBoxFetchTimes
        [(0, FilterInput.select), (100, FilterInput.select),
          (250, FilterInput.select)] = [550] := by
  have h := (filter_debounce_single_fetch 0 [100, 250] (by decide)).1
  exact h.trans (by decide)
